import Mathlib

/-!
Verification of the Saved-Item Aggregation, Synchronization, and
Deferred-Delete Engine against its implementation.

The embedding models:
* the persisted stores (`saved_flashcards` and `custom_flashcards` tables)
  as lists of records inside a `Db` value;
* the server actions of `flashcard-actions.ts` (`deleteCustomFlashcard`,
  `unsaveAppFlashcard`) as pure functions over `Db`, with injected failure
  flags standing for the fallibility of each database call, and an
  explicit trace of attempted database operations;
* the client-side mutation coordinator of `SavedFlashcardsClient.tsx`
  (`startUnsaveCountdown`, `handleUndoUnsave`, the deferred commit
  callback, and the countdown dismiss handler) as functions over a
  `ClientState` holding the flattened view cache, the per-page query
  cache, and the optional pending deletion;
* the index store adapter of `savedFlashcardsService.ts`
  (`getSavedFlashcardsPaginated`, `getCustomFlashcardsByIds`,
  `getCustomFlashcardTopics`, `getUserStats`) as pure functions over the
  table contents, where the result list handed back by the database for
  an order-by clause is modelled by a sortedness hypothesis;
* the content resolver of `fetchSavedFlashcardsPage` and the save toggle
  of `useSavedFlashcards.ts`.
-/

namespace SavedEngine

/-- Content type of a saved entry: APP rows point at remote content,
CUSTOM rows point at locally owned content. -/
inductive FcType
  | APP
  | CUSTOM
deriving DecidableEq, Repr

/-- A row of the `saved_flashcards` table (the SavedIndexEntry).
Field names follow the columns read by the code: `id`, `UserID`
(here `userId`), `flashcard_id`, `flashcard_type`, `saved_at`,
`is_favorite`. -/
structure SavedRow where
  id : Nat
  userId : Nat
  flashcardId : String
  fcType : FcType
  savedAt : Nat
  isFavorite : Bool
deriving DecidableEq, Repr

/-- A row of the `custom_flashcards` table (the LocalContentRecord):
`id`, `user_id`, `status = ACTIVE` modelled as `active`, plus the
display fields read by the resolver. -/
structure CustomRow where
  id : String
  userId : Nat
  active : Bool
  vietnameseText : String
  englishText : String
  topic : Option String
deriving DecidableEq, Repr

/-- The persisted state: both tables. -/
structure Db where
  saved : List SavedRow
  custom : List CustomRow
deriving DecidableEq, Repr

/-- A database operation attempted by a server action, recorded in
attempt order. -/
inductive DbOp
  | deleteSavedEntry (customId : String) (uid : Nat)
  | deleteCustomRecord (customId : String) (uid : Nat)
  | deleteSavedById (savedId : Nat) (uid : Nat)
deriving DecidableEq, Repr

/-- Result shape of the server actions: `{ success, error? }`. -/
structure ActionResult where
  success : Bool
  error : Option String
deriving DecidableEq, Repr

/-- Injected failure behaviour of the two delete calls inside
`deleteCustomFlashcard`: the code cannot observe why a call fails, only
that it returned an error, so each call gets a Boolean failure flag. -/
structure FailurePlan where
  savedDeleteFails : Bool
  customDeleteFails : Bool
deriving DecidableEq, Repr

/-- The `saved_flashcards` delete issued by `deleteCustomFlashcard`:
`.eq(flashcard_id, custom_<id>).eq(UserID, uid).eq(flashcard_type, CUSTOM)`. -/
def deleteSavedRows (db : Db) (customId : String) (uid : Nat) : Db :=
  { db with saved := db.saved.filter (fun r =>
      !(r.flashcardId == "custom_" ++ customId && r.userId == uid
          && r.fcType == FcType.CUSTOM)) }

/-- The `custom_flashcards` delete issued by `deleteCustomFlashcard`:
`.eq(id, customId).eq(user_id, uid)`. -/
def deleteCustomRows (db : Db) (customId : String) (uid : Nat) : Db :=
  { db with custom := db.custom.filter (fun r =>
      !(r.id == customId && r.userId == uid)) }

/-- The `deleteCustomFlashcard` server action of `flashcard-actions.ts`.
Step 1 deletes from `saved_flashcards` first; an error there is logged
and the function continues. Step 2 deletes from `custom_flashcards`; an
error there returns `success = false`. Returns the action result, the
database after the action, and the trace of attempted operations. -/
def deleteCustomFlashcard (user : Option Nat) (fp : FailurePlan) (db : Db)
    (customFlashcardId : String) : ActionResult × Db × List DbOp :=
  match user with
  | none =>
      ({ success := false, error := some "Not authenticated - please log in first" },
        db, [])
  | some uid =>
      let db1 := if fp.savedDeleteFails then db else deleteSavedRows db customFlashcardId uid
      let ops := [DbOp.deleteSavedEntry customFlashcardId uid,
                  DbOp.deleteCustomRecord customFlashcardId uid]
      if fp.customDeleteFails then
        ({ success := false, error := some "Failed to delete flashcard" }, db1, ops)
      else
        ({ success := true, error := none }, deleteCustomRows db1 customFlashcardId uid, ops)

/-- The `unsaveAppFlashcard` server action: a single delete from
`saved_flashcards` by row id and `UserID`; on error it returns
`success = false` and the database is unchanged. -/
def unsaveAppFlashcard (user : Option Nat) (fails : Bool) (db : Db)
    (savedFlashcardId : Nat) : ActionResult × Db × List DbOp :=
  match user with
  | none =>
      ({ success := false, error := some "Not authenticated - please log in first" },
        db, [])
  | some uid =>
      let ops := [DbOp.deleteSavedById savedFlashcardId uid]
      if fails then
        ({ success := false, error := some "Failed to unsave flashcard" }, db, ops)
      else
        ({ success := true, error := none },
          { db with saved := db.saved.filter (fun r =>
              !(r.id == savedFlashcardId && r.userId == uid)) }, ops)

/-- Recognises the content-record (`custom_flashcards`) delete. -/
def isContentDeleteOp : DbOp → Bool
  | DbOp.deleteCustomRecord _ _ => true
  | _ => false

/-- Recognises a saved-index-entry (`saved_flashcards`) delete. -/
def isIndexDeleteOp : DbOp → Bool
  | DbOp.deleteSavedEntry _ _ => true
  | DbOp.deleteSavedById _ _ => true
  | _ => false

/-- Whether, in an attempt trace, the content-record delete is attempted
strictly before the index-entry delete (`findIdx` returns the length
when no operation matches). -/
def contentAttemptedFirst (ops : List DbOp) : Bool :=
  decide (ops.findIdx isContentDeleteOp < ops.findIdx isIndexDeleteOp)

/-- An item held in the Local View Cache (the `SavedFlashcardDetails`
objects of `SavedFlashcardsClient.tsx`, restricted to the fields the
coordinator reads). -/
structure CacheItem where
  id : Nat
  flashcardId : String
  fcType : FcType
  savedAt : Nat
  isFavorite : Bool
deriving DecidableEq, Repr

/-- One page retained by the infinite query cache. -/
structure PageCache where
  items : List CacheItem
  nextCursor : Option Nat
deriving DecidableEq, Repr

/-- A pending deletion: the item id, the snapshot taken at delete-intent
time, and the deferred-task handle (`timeoutId`), modelled as an armed
flag that lives and dies with the record. -/
structure Pending where
  itemId : Nat
  original : CacheItem
  armed : Bool
deriving DecidableEq, Repr

/-- Client-side coordinator state: the flattened details list, the
per-page query cache, the single pending-unsave slot, and the countdown
toast visibility. -/
structure ClientState where
  details : List CacheItem
  pages : List PageCache
  pending : Option Pending
  showToast : Bool
deriving DecidableEq, Repr

/-- `startUnsaveCountdown`: look the item up in the details list (return
unchanged when absent), optimistically remove it from both caches,
record the pending deletion with its snapshot, and show the countdown.
The Boolean reports whether a countdown was actually started. -/
def startUnsaveCountdown (c : ClientState) (fid : Nat) : ClientState × Bool :=
  match c.details.find? (fun f => f.id == fid) with
  | none => (c, false)
  | some fc =>
      ({ details := c.details.filter (fun f => !(f.id == fid)),
         pages := c.pages.map (fun p =>
           { p with items := p.items.filter (fun f => !(f.id == fid)) }),
         pending := some { itemId := fid, original := fc, armed := true },
         showToast := true }, true)

/-- `handleUndoUnsave`: when a pending deletion exists, clear the
deferred task, append the snapshot to the details list, prepend it to
the first retained page, and discard the pending record. No database
operation is issued (the empty trace). -/
def handleUndoUnsave (c : ClientState) : ClientState × List DbOp :=
  match c.pending with
  | none => (c, [])
  | some p =>
      ({ details := c.details ++ [p.original],
         pages :=
           match c.pages with
           | [] => []
           | p0 :: rest => { p0 with items := p.original :: p0.items } :: rest,
         pending := none,
         showToast := false }, [])

/-- The countdown toast dismiss handler: hide the toast and, when a
pending deletion exists, clear its deferred task and discard it. The
caches are not touched and no database operation is issued. -/
def dismissCountdown (c : ClientState) : ClientState × List DbOp :=
  match c.pending with
  | some _ => ({ c with showToast := false, pending := none }, [])
  | none => ({ c with showToast := false }, [])

/-- Prepend an item to the first retained page, as the rollback and undo
paths do with `pages[0]`. -/
def prependFirstPage (pages : List PageCache) (fc : CacheItem) : List PageCache :=
  match pages with
  | [] => []
  | p0 :: rest => { p0 with items := fc :: p0.items } :: rest

/-- The characters of the `custom_` namespace tag. -/
def customTagChars : List Char := ['c', 'u', 's', 't', 'o', 'm', '_']

/-- Strips the `custom_` namespace tag, as
`flashcard_id.replace(custom_, empty)` does on these ids (the source
replaces the first occurrence, which for these ids is the leading tag;
modelled character-wise so that it evaluates). -/
def stripCustomTag (s : String) : String :=
  if customTagChars.isPrefixOf s.data then String.mk (s.data.drop 7) else s

/-- Result of a deferred commit: the client state, the database, the
action result observed, and the trace of attempted operations. -/
structure CommitOut where
  client : ClientState
  db : Db
  result : ActionResult
  ops : List DbOp
deriving DecidableEq, Repr

/-- The deferred commit callback in DELETE mode: call the
`deleteCustomFlashcard` server action with the stripped id; on failure
restore the snapshot (append to details, prepend to the first page); in
both cases hide the toast and discard the pending record. -/
def commitDelete (user : Option Nat) (fp : FailurePlan) (c : ClientState)
    (db : Db) (fc : CacheItem) : CommitOut :=
  let r := deleteCustomFlashcard user fp db (stripCustomTag fc.flashcardId)
  if r.1.success then
    { client := { c with showToast := false, pending := none },
      db := r.2.1, result := r.1, ops := r.2.2 }
  else
    { client := { c with
        details := c.details ++ [fc],
        pages := prependFirstPage c.pages fc,
        showToast := false, pending := none },
      db := r.2.1, result := r.1, ops := r.2.2 }

/-- The deferred commit callback in UNSAVE mode: call the
`unsaveAppFlashcard` server action with the saved row id; on failure
restore the snapshot exactly as in DELETE mode. -/
def commitUnsave (user : Option Nat) (fails : Bool) (c : ClientState)
    (db : Db) (fc : CacheItem) : CommitOut :=
  let r := unsaveAppFlashcard user fails db fc.id
  if r.1.success then
    { client := { c with showToast := false, pending := none },
      db := r.2.1, result := r.1, ops := r.2.2 }
  else
    { client := { c with
        details := c.details ++ [fc],
        pages := prependFirstPage c.pages fc,
        showToast := false, pending := none },
      db := r.2.1, result := r.1, ops := r.2.2 }

/-- Concrete saved row used by the concrete-input theorems. -/
def savedRow0 : SavedRow :=
  { id := 10, userId := 1, flashcardId := "custom_c1", fcType := FcType.CUSTOM,
    savedAt := 100, isFavorite := false }

/-- Concrete custom row used by the concrete-input theorems. -/
def customRow0 : CustomRow :=
  { id := "c1", userId := 1, active := true, vietnameseText := "xin chao",
    englishText := "hello", topic := none }

/-- Concrete database used by the concrete-input theorems. -/
def db0 : Db := { saved := [savedRow0], custom := [customRow0] }

/-- Concrete cache item matching `savedRow0`. -/
def item0 : CacheItem :=
  { id := 10, flashcardId := "custom_c1", fcType := FcType.CUSTOM,
    savedAt := 100, isFavorite := false }

/-- Concrete client state at commit time: the item was already removed
optimistically and its snapshot is held in the pending slot. -/
def client0 : ClientState :=
  { details := [], pages := [{ items := [], nextCursor := none }],
    pending := some { itemId := 10, original := item0, armed := true },
    showToast := true }

/-- C1 counterexample: at a concrete DELETE-mode commit on LOCAL content
(owner 1, custom id c1, both deletes succeeding), the attempt trace of
`deleteCustomFlashcard` does NOT attempt the content-record delete
before the index-entry delete: the `saved_flashcards` delete comes
first, refuting the claimed ordering. -/
theorem c1_counterexample :
    contentAttemptedFirst
      (deleteCustomFlashcard (some 1)
        { savedDeleteFails := false, customDeleteFails := false } db0 "c1").2.2
      = false := by
  decide

/-- C1 amended: in every authenticated DELETE-mode commit, the
`saved_flashcards` index-entry delete is attempted first and the
`custom_flashcards` content-record delete second; the index delete is
attempted unconditionally (its failure is only logged) and the action
succeeds exactly when the content-record delete succeeds, regardless of
the index delete outcome. -/
theorem c1_amended (uid : Nat) (fp : FailurePlan) (db : Db) (cid : String) :
    (deleteCustomFlashcard (some uid) fp db cid).2.2
        = [DbOp.deleteSavedEntry cid uid, DbOp.deleteCustomRecord cid uid] ∧
    (deleteCustomFlashcard (some uid) fp db cid).1.success
        = !fp.customDeleteFails := by
  cases hc : fp.customDeleteFails <;>
    simp [deleteCustomFlashcard, hc]

/-- C2 counterexample: at a concrete DELETE-mode commit in which the
content-record delete fails (and the index delete succeeds), the
operation does abort with an error and the snapshot does reappear in
the Local View Cache, but persisted state HAS changed: the saved index
entry is gone while the content record survives, refuting the claim
that neither store was changed. -/
theorem c2_counterexample :
    (commitDelete (some 1) { savedDeleteFails := false, customDeleteFails := true }
        client0 db0 item0).result.success = false ∧
    item0 ∈ (commitDelete (some 1) { savedDeleteFails := false, customDeleteFails := true }
        client0 db0 item0).client.details ∧
    (commitDelete (some 1) { savedDeleteFails := false, customDeleteFails := true }
        client0 db0 item0).db.custom = db0.custom ∧
    (commitDelete (some 1) { savedDeleteFails := false, customDeleteFails := true }
        client0 db0 item0).db.saved ≠ db0.saved := by
  decide

/-- C2 amended: for every DELETE-mode commit in which the
content-record delete fails, the operation aborts with an error
surfaced to the caller and the snapshot reappears in the Local View
Cache; the content record is unchanged, but the saved index entry is
not rolled back: its delete was already attempted first, so the index
entry is gone whenever that first delete succeeded. -/
theorem c2_amended (uid : Nat) (sf : Bool) (c : ClientState) (db : Db)
    (fc : CacheItem) :
    (commitDelete (some uid) { savedDeleteFails := sf, customDeleteFails := true }
        c db fc).result.success = false ∧
    fc ∈ (commitDelete (some uid) { savedDeleteFails := sf, customDeleteFails := true }
        c db fc).client.details ∧
    (commitDelete (some uid) { savedDeleteFails := sf, customDeleteFails := true }
        c db fc).db.custom = db.custom ∧
    (commitDelete (some uid) { savedDeleteFails := sf, customDeleteFails := true }
        c db fc).db.saved
      = (if sf then db.saved
         else (deleteSavedRows db (stripCustomTag fc.flashcardId) uid).saved) := by
  cases sf <;>
    simp [commitDelete, deleteCustomFlashcard, deleteSavedRows]

/-- C4 counterexample: at a concrete UNSAVE-mode commit whose
saved-index-entry delete fails, the item IS restored to the Local View
Cache (it reappears in the details list), refuting the claim that the
item is not restored. -/
theorem c4_counterexample :
    (commitUnsave (some 1) true client0 db0 item0).result.success = false ∧
    item0 ∈ (commitUnsave (some 1) true client0 db0 item0).client.details := by
  decide

/-- C4 amended: for every UNSAVE-mode commit in which the
saved-index-entry delete fails, the failure is surfaced as an error and
the snapshotted item is restored to the Local View Cache (appended to
the flattened list and prepended to the first retained page); the
persisted state is unchanged and no retry is attempted (a single delete
operation appears in the trace). -/
theorem c4_amended (uid : Nat) (c : ClientState) (db : Db) (fc : CacheItem) :
    (commitUnsave (some uid) true c db fc).result.success = false ∧
    fc ∈ (commitUnsave (some uid) true c db fc).client.details ∧
    (commitUnsave (some uid) true c db fc).client.pages
        = prependFirstPage c.pages fc ∧
    (commitUnsave (some uid) true c db fc).db = db ∧
    (commitUnsave (some uid) true c db fc).ops
        = [DbOp.deleteSavedById fc.id uid] := by
  simp [commitUnsave, unsaveAppFlashcard]

/-- C5: once a countdown has been started for an item (so a
PendingDeletion exists for it and the item has been removed from the
view cache), a second `startUnsaveCountdown` on the same item is
rejected: it returns the state unchanged, so no new PendingDeletion is
created and the first pending record, its deferred task, and its
snapshot are untouched. -/
theorem c5_second_request_rejected (c c1 : ClientState) (fid : Nat)
    (h1 : startUnsaveCountdown c fid = (c1, true)) :
    startUnsaveCountdown c1 fid = (c1, false) := by
  unfold startUnsaveCountdown at h1
  cases hf : c.details.find? (fun f => f.id == fid) with
  | none =>
      simp only [hf] at h1
      exact absurd (congrArg Prod.snd h1) (by simp)
  | some fc =>
      simp only [hf] at h1
      have hc1 : c1
          = { details := c.details.filter (fun f => !(f.id == fid)),
              pages := c.pages.map (fun p =>
                { p with items := p.items.filter (fun f => !(f.id == fid)) }),
              pending := some { itemId := fid, original := fc, armed := true },
              showToast := true } :=
        (congrArg Prod.fst h1).symm
      have hnone : c1.details.find? (fun f => f.id == fid) = none := by
        rw [hc1]
        show (c.details.filter (fun f => !(f.id == fid))).find?
          (fun f => f.id == fid) = none
        rw [List.find?_eq_none]
        intro x hx
        have h2 := (List.mem_filter.mp hx).2
        simpa using h2
      unfold startUnsaveCountdown
      rw [hnone]

/-- Concrete client state with one item, for the C5 witness. -/
def client5 : ClientState :=
  { details := [{ id := 3, flashcardId := "f3", fcType := FcType.APP,
                  savedAt := 7, isFavorite := false }],
    pages := [{ items := [{ id := 3, flashcardId := "f3", fcType := FcType.APP,
                            savedAt := 7, isFavorite := false }],
                nextCursor := none }],
    pending := none,
    showToast := false }

/-- C5 witness: the rejection theorem applied at a concrete state in
which a countdown for item 3 has just been started. -/
theorem c5_witness :
    startUnsaveCountdown (startUnsaveCountdown client5 3).1 3
      = ((startUnsaveCountdown client5 3).1, false) :=
  c5_second_request_rejected client5 (startUnsaveCountdown client5 3).1 3 (by decide)

/-- The flattened contents of the retained pages, as the effect that
recomputes `savedFlashcardsDetails` from `data.pages` sees them. -/
def flattenPages (pages : List PageCache) : List CacheItem :=
  (pages.map PageCache.items).flatten

/-- Removing all items with id `fid` from every retained page removes
exactly those items from the flattened view. -/
theorem flattenPages_filter (pages : List PageCache) (q : CacheItem → Bool) :
    flattenPages (pages.map (fun p => { p with items := p.items.filter q }))
      = (flattenPages pages).filter q := by
  unfold flattenPages
  rw [List.filter_flatten, List.map_map, List.map_map]
  rfl

/-- When the ids in a list are distinct, removing every item with the
found id and appending the found item back is a permutation of the
original list. -/
theorem filter_append_found_perm (l : List CacheItem) (fid : Nat)
    (hn : (l.map CacheItem.id).Nodup) (fc : CacheItem)
    (hf : l.find? (fun f => f.id == fid) = some fc) :
    (l.filter (fun f => !(f.id == fid)) ++ [fc]).Perm l := by
  induction l with
  | nil => simp at hf
  | cons a t ih =>
      have hnt : (t.map CacheItem.id).Nodup := (List.nodup_cons.mp hn).2
      have hna : a.id ∉ t.map CacheItem.id := (List.nodup_cons.mp hn).1
      cases ha : (a.id == fid) with
      | true =>
          have hfa : fc = a := by
            rw [List.find?_cons_of_pos t ha] at hf
            exact (Option.some.inj hf).symm
          rw [hfa]
          have haid : a.id = fid := by simpa using ha
          have hkeep : t.filter (fun f => !(f.id == fid)) = t := by
            apply List.filter_eq_self.mpr
            intro x hx
            have hx2 : x.id ≠ fid := by
              intro hxe
              exact hna (by
                rw [haid, ← hxe]
                exact List.mem_map_of_mem CacheItem.id hx)
            simpa using hx2
          rw [List.filter_cons_of_neg (by simp [ha]), hkeep]
          exact List.perm_append_singleton a t
      | false =>
          have hf2 : t.find? (fun f => f.id == fid) = some fc := by
            rw [List.find?_cons_of_neg t (by simp [ha])] at hf
            exact hf
          rw [List.filter_cons_of_pos (by simp [ha])]
          exact (ih hnt hf2).cons a

/-- Inversion of a successful `startUnsaveCountdown`: the item was
found in the details list and the resulting state is the optimistic
removal with the pending snapshot. -/
theorem startUnsaveCountdown_started (c : ClientState) (fid : Nat)
    (c1 : ClientState) (h1 : startUnsaveCountdown c fid = (c1, true)) :
    ∃ fc, c.details.find? (fun f => f.id == fid) = some fc ∧
      c1 = { details := c.details.filter (fun f => !(f.id == fid)),
             pages := c.pages.map (fun p =>
               { p with items := p.items.filter (fun f => !(f.id == fid)) }),
             pending := some { itemId := fid, original := fc, armed := true },
             showToast := true } := by
  unfold startUnsaveCountdown at h1
  cases hf : c.details.find? (fun f => f.id == fid) with
  | none =>
      simp only [hf] at h1
      exact absurd (congrArg Prod.snd h1) (by simp)
  | some fc =>
      simp only [hf] at h1
      exact ⟨fc, rfl, (congrArg Prod.fst h1).symm⟩

/-- Concrete pre-delete state for the C3 counterexample: two items in
savedAt-descending order. -/
def preC3 : ClientState :=
  { details :=
      [{ id := 1, flashcardId := "a", fcType := FcType.APP,
         savedAt := 10, isFavorite := false },
       { id := 2, flashcardId := "b", fcType := FcType.APP,
         savedAt := 5, isFavorite := false }],
    pages :=
      [{ items :=
           [{ id := 1, flashcardId := "a", fcType := FcType.APP,
              savedAt := 10, isFavorite := false },
            { id := 2, flashcardId := "b", fcType := FcType.APP,
              savedAt := 5, isFavorite := false }],
         nextCursor := none }],
    pending := none,
    showToast := false }

/-- C3 counterexample: request deletion of the first (newest) item of
`preC3` and undo before the deadline. The snapshot is appended at the
end of the details list, so the cache is neither equal to the
pre-delete state nor in savedAt-descending order, refuting the claimed
reinsertion at the correct position. -/
theorem c3_counterexample :
    (handleUndoUnsave (startUnsaveCountdown preC3 1).1).1.details
        ≠ preC3.details ∧
    ¬ ((handleUndoUnsave (startUnsaveCountdown preC3 1).1).1.details.Pairwise
        (fun x y => y.savedAt ≤ x.savedAt)) := by
  decide

/-- C3 amended: cancelling before the deadline clears the deferred
task, discards the PendingDeletion, and makes no persistence call; the
snapshot is reinserted into the Local View Cache, but by appending to
the flattened list and prepending to the first page rather than at its
savedAt position, so the cache is restored only up to permutation
(same members, order not necessarily the pre-delete one). The
hypotheses record the cache invariants at delete-intent time: the
flattened list mirrors the retained pages and ids are unique. -/
theorem c3_amended (c : ClientState) (fid : Nat) (c1 : ClientState)
    (hsync : c.details = flattenPages c.pages)
    (hn : (c.details.map CacheItem.id).Nodup)
    (h1 : startUnsaveCountdown c fid = (c1, true)) :
    (handleUndoUnsave c1).2 = [] ∧
    (handleUndoUnsave c1).1.pending = none ∧
    ((handleUndoUnsave c1).1.details).Perm c.details ∧
    (flattenPages (handleUndoUnsave c1).1.pages).Perm (flattenPages c.pages) := by
  obtain ⟨fc, hf, hc1⟩ := startUnsaveCountdown_started c fid c1 h1
  subst hc1
  have hperm : (c.details.filter (fun f => !(f.id == fid)) ++ [fc]).Perm c.details :=
    filter_append_found_perm c.details fid hn fc hf
  refine ⟨?_, ?_, ?_, ?_⟩
  · simp [handleUndoUnsave]
  · simp [handleUndoUnsave]
  · simpa [handleUndoUnsave] using hperm
  · cases hp : c.pages with
    | nil =>
        exfalso
        rw [hp] at hsync
        simp [flattenPages] at hsync
        rw [hsync] at hf
        simp at hf
    | cons q0 qrest =>
        have hsync2 : c.details = q0.items ++ flattenPages qrest := by
          rw [hsync, hp]
          rfl
        show (flattenPages
            ({ items := fc :: q0.items.filter (fun f => !(f.id == fid)),
               nextCursor := q0.nextCursor }
              :: qrest.map (fun p =>
                { p with items := p.items.filter (fun f => !(f.id == fid)) }))).Perm
          (flattenPages (q0 :: qrest))
        show ((fc :: q0.items.filter (fun f => !(f.id == fid)))
            ++ flattenPages (qrest.map (fun p =>
                { p with items := p.items.filter (fun f => !(f.id == fid)) }))).Perm
          (q0.items ++ flattenPages qrest)
        rw [flattenPages_filter qrest (fun f => !(f.id == fid))]
        have hgoal : (fc :: q0.items.filter (fun f => !(f.id == fid)))
              ++ (flattenPages qrest).filter (fun f => !(f.id == fid))
            = fc :: (c.details.filter (fun f => !(f.id == fid))) := by
          rw [hsync2, List.filter_append, List.cons_append]
        rw [hgoal]
        rw [← hsync2]
        exact ((List.perm_append_singleton fc
          (c.details.filter (fun f => !(f.id == fid)))).symm).trans hperm

/-- Concrete client state for the C3 witness, satisfying the cache
invariants. -/
def cW3 : ClientState :=
  { details :=
      [{ id := 4, flashcardId := "w", fcType := FcType.APP,
         savedAt := 9, isFavorite := false },
       { id := 5, flashcardId := "v", fcType := FcType.CUSTOM,
         savedAt := 6, isFavorite := true }],
    pages :=
      [{ items :=
           [{ id := 4, flashcardId := "w", fcType := FcType.APP,
              savedAt := 9, isFavorite := false },
            { id := 5, flashcardId := "v", fcType := FcType.CUSTOM,
              savedAt := 6, isFavorite := true }],
         nextCursor := none }],
    pending := none,
    showToast := false }

/-- C3 witness: the amended undo theorem applied to `cW3` with the
countdown started on item 4. -/
theorem c3_witness :
    (handleUndoUnsave (startUnsaveCountdown cW3 4).1).2 = [] ∧
    (handleUndoUnsave (startUnsaveCountdown cW3 4).1).1.pending = none ∧
    ((handleUndoUnsave (startUnsaveCountdown cW3 4).1).1.details).Perm cW3.details ∧
    (flattenPages (handleUndoUnsave
        (startUnsaveCountdown cW3 4).1).1.pages).Perm (flattenPages cW3.pages) :=
  c3_amended cW3 4 (startUnsaveCountdown cW3 4).1 (by decide) (by decide) (by decide)

/-- Page size of the index store adapter (`limit = 20`). -/
def pageLimit : Nat := 20

/-- The `.eq(UserID, uid)` clause of the paginated query. -/
def userRows (rows : List SavedRow) (uid : Nat) : List SavedRow :=
  rows.filter (fun r => r.userId == uid)

/-- The optional `.lt(saved_at, cursor)` clause of the paginated query. -/
def cursorFilter (l : List SavedRow) : Option Nat → List SavedRow
  | none => l
  | some c => l.filter (fun r => decide (r.savedAt < c))

/-- `getSavedFlashcardsPaginated` of `savedFlashcardsService.ts`. The
argument `rows` stands for the `saved_flashcards` table as the database
hands it back for the `order(saved_at, descending)` clause, so theorems
about it carry a sortedness hypothesis. The adapter throws when no user
is authenticated, applies the owner and cursor clauses, fetches
`pageLimit + 1` rows, truncates to `pageLimit`, and emits the last
saved_at as the next cursor exactly when an extra row was fetched. -/
def getSavedFlashcardsPaginated (user : Option Nat) (rows : List SavedRow)
    (cursor : Option Nat) : Except String (List SavedRow × Option Nat) :=
  match user with
  | none => Except.error "User not authenticated"
  | some uid =>
      let filtered := cursorFilter (userRows rows uid) cursor
      let data := filtered.take (pageLimit + 1)
      let items := data.take pageLimit
      let nextCursor : Option Nat :=
        if pageLimit < data.length then items.getLast?.map SavedRow.savedAt
        else none
      Except.ok (items, nextCursor)

/-- Drives the adapter the way the infinite query does: call a page,
feed the returned cursor into the next call, and concatenate the items,
stopping when no next cursor is returned. `fuel` bounds the number of
pages. -/
def collectPages (user : Option Nat) (rows : List SavedRow) :
    Option Nat → Nat → List SavedRow
  | _, 0 => []
  | cursor, fuel + 1 =>
      match getSavedFlashcardsPaginated user rows cursor with
      | Except.error _ => []
      | Except.ok (items, none) => items
      | Except.ok (items, some c) => items ++ collectPages user rows (some c) fuel

/-- In a strictly savedAt-descending list, filtering to rows strictly
below the savedAt of the element at index `k` yields exactly the suffix
after that element. -/
theorem filter_lt_eq_drop (l : List SavedRow)
    (hs : l.Pairwise (fun a b => b.savedAt < a.savedAt)) :
    ∀ (k : Nat) (e : SavedRow), l[k]? = some e →
      l.filter (fun r => decide (r.savedAt < e.savedAt)) = l.drop (k + 1) := by
  induction l with
  | nil => intro k e he; simp at he
  | cons a t ih =>
      intro k e he
      have hps := List.pairwise_cons.mp hs
      cases k with
      | zero =>
          have hea : a = e := by simpa using he
          subst hea
          have hhead : (decide (a.savedAt < a.savedAt)) = false := by simp
          rw [List.filter_cons, hhead]
          simp only [List.drop_succ_cons, List.drop_zero]
          exact List.filter_eq_self.mpr (fun x hx => by
            simpa using hps.1 x hx)
      | succ k =>
          have he2 : t[k]? = some e := by simpa using he
          have hmem : e ∈ t := List.getElem?_mem he2
          have hlt : e.savedAt < a.savedAt := hps.1 e hmem
          have hhead : (decide (a.savedAt < e.savedAt)) = false := by
            simp; omega
          rw [List.filter_cons, hhead]
          simpa using ih hps.2 k e he2

/-- Main pagination invariant: when the owner rows are strictly
savedAt-descending, running the cursor loop from a cursor whose filter
selects exactly the suffix `drop k` returns that suffix, given enough
fuel. -/
theorem collectPages_eq_drop (uid : Nat) (rows : List SavedRow)
    (hs : (userRows rows uid).Pairwise (fun a b => b.savedAt < a.savedAt)) :
    ∀ (fuel k : Nat) (cursor : Option Nat),
      cursorFilter (userRows rows uid) cursor = (userRows rows uid).drop k →
      (userRows rows uid).length - k ≤ fuel * pageLimit →
      collectPages (some uid) rows cursor fuel = (userRows rows uid).drop k := by
  intro fuel
  induction fuel with
  | zero =>
      intro k cursor hcur hlen
      have hnil : (userRows rows uid).drop k = [] :=
        List.drop_eq_nil_of_le (by
          have h0 : 0 * pageLimit = 0 := Nat.zero_mul pageLimit
          omega)
      rw [hnil]
      rfl
  | succ fuel ih =>
      intro k cursor hcur hlen
      rw [collectPages, getSavedFlashcardsPaginated]
      simp only [hcur]
      by_cases hbig :
          pageLimit < (((userRows rows uid).drop k).take (pageLimit + 1)).length
      · -- more than a full page remains
        have hlen21 : pageLimit + 1 ≤ ((userRows rows uid).drop k).length := by
          rw [List.length_take] at hbig
          omega
        have hlenfull : k + (pageLimit + 1) ≤ (userRows rows uid).length := by
          rw [List.length_drop] at hlen21
          omega
        -- the truncated page
        have hitems : (((userRows rows uid).drop k).take (pageLimit + 1)).take pageLimit
            = ((userRows rows uid).drop k).take pageLimit := by
          rw [List.take_take]
          congr 1
        -- index of the cursor element inside the full owner list
        have hgetfull : (userRows rows uid)[k + (pageLimit - 1)]? =
            ((userRows rows uid).drop k)[pageLimit - 1]? := by
          rw [List.getElem?_drop]
        have hlt19 : pageLimit - 1 < ((userRows rows uid).drop k).length := by
          rw [List.length_drop]
          omega
        obtain ⟨e, he⟩ : ∃ e, ((userRows rows uid).drop k)[pageLimit - 1]? = some e :=
          ⟨_, List.getElem?_eq_getElem hlt19⟩
      -- simplify getLast? of the page to the cursor element
        have hlast : (((userRows rows uid).drop k).take pageLimit).getLast?
            = some e := by
          rw [List.getLast?_eq_getElem?]
          have hlentake : (((userRows rows uid).drop k).take pageLimit).length
              = pageLimit := by
            rw [List.length_take, List.length_drop]
            omega
          rw [hlentake, List.getElem?_take]
          have : pageLimit - 1 < pageLimit := by decide
          rw [if_pos this]
          exact he
        rw [if_pos hbig, hitems, hlast]
        -- identify the new cursor filter with the next suffix
        have hefull : (userRows rows uid)[k + (pageLimit - 1)]? = some e := by
          rw [hgetfull]; exact he
        have harith : k + (pageLimit - 1) + 1 = k + pageLimit := by
          have hp : pageLimit = 20 := rfl
          omega
        have hnextfilter : cursorFilter (userRows rows uid) (some e.savedAt)
            = (userRows rows uid).drop (k + pageLimit) := by
          show (userRows rows uid).filter (fun r => decide (r.savedAt < e.savedAt))
              = (userRows rows uid).drop (k + pageLimit)
          rw [filter_lt_eq_drop (userRows rows uid) hs (k + (pageLimit - 1)) e hefull,
            harith]
        have hbound : (userRows rows uid).length - (k + pageLimit)
            ≤ fuel * pageLimit := by
          have hmul : (fuel + 1) * pageLimit = fuel * pageLimit + pageLimit :=
            Nat.succ_mul fuel pageLimit
          omega
        have hih := ih (k + pageLimit) (some e.savedAt) hnextfilter hbound
        simp only [Option.map_some']
        rw [hih]
        rw [show (userRows rows uid).drop (k + pageLimit)
            = ((userRows rows uid).drop k).drop pageLimit by
          rw [List.drop_drop]]
        exact List.take_append_drop pageLimit ((userRows rows uid).drop k)
      · -- at most a full page remains: this is the last page
        have hsmall : ((userRows rows uid).drop k).length ≤ pageLimit := by
          rw [List.length_take] at hbig
          omega
        rw [if_neg hbig]
        have h1 : ((userRows rows uid).drop k).take (pageLimit + 1)
            = (userRows rows uid).drop k :=
          List.take_of_length_le (by omega)
        rw [h1, List.take_of_length_le hsmall]

/-- C6 amended: when the owner rows come back from the store strictly
savedAt-descending (all savedAt values distinct), walking
`getSavedFlashcardsPaginated` through its own cursors and concatenating
the pages yields exactly the unpaginated owner result set, in that
order, with no duplicates and no omissions. -/
theorem c6_amended (uid : Nat) (rows : List SavedRow)
    (hs : (userRows rows uid).Pairwise (fun a b => b.savedAt < a.savedAt)) :
    collectPages (some uid) rows none (rows.length + 1) = userRows rows uid := by
  have h0 : cursorFilter (userRows rows uid) none = (userRows rows uid).drop 0 := by
    rfl
  have hlen : (userRows rows uid).length - 0 ≤ (rows.length + 1) * pageLimit := by
    have hf := List.length_filter_le (fun r => r.userId == uid) rows
    have hp : pageLimit = 20 := rfl
    unfold userRows
    rw [hp]
    omega
  have := collectPages_eq_drop uid rows hs (rows.length + 1) 0 none h0 hlen
  simpa using this

/-- Concrete rows for the C6 witness: three owner rows with distinct
descending savedAt values among a stranger row. -/
def rowsW6 : List SavedRow :=
  [{ id := 1, userId := 1, flashcardId := "a", fcType := FcType.APP,
     savedAt := 30, isFavorite := false },
   { id := 2, userId := 2, flashcardId := "b", fcType := FcType.APP,
     savedAt := 25, isFavorite := false },
   { id := 3, userId := 1, flashcardId := "c", fcType := FcType.CUSTOM,
     savedAt := 20, isFavorite := true },
   { id := 4, userId := 1, flashcardId := "d", fcType := FcType.APP,
     savedAt := 10, isFavorite := false }]

/-- C6 witness: the amended pagination theorem applied to the concrete
store `rowsW6` for owner 1. -/
theorem c6_witness :
    (userRows rowsW6 1).Pairwise (fun a b => b.savedAt < a.savedAt) ∧
    collectPages (some 1) rowsW6 none (rowsW6.length + 1) = userRows rowsW6 1 :=
  ⟨by decide, c6_amended 1 rowsW6 (by decide)⟩

/-- A store of `pageLimit + 1` rows of one owner, all sharing one
savedAt value, for the C6 counterexample. -/
def rowsTied : List SavedRow :=
  (List.range (pageLimit + 1)).map (fun i =>
    { id := i, userId := 1, flashcardId := "", fcType := FcType.APP,
      savedAt := 5, isFavorite := false })

/-- C6 counterexample: with `pageLimit + 1` owner rows sharing one
savedAt value, the first page truncates to `pageLimit` rows and the
strict-less-than cursor then selects nothing, so the concatenation of
all pages omits a row and differs from the unpaginated fetch, refuting
the claim for arbitrary stored sets. -/
theorem c6_counterexample :
    collectPages (some 1) rowsTied none (rowsTied.length + 1) ≠ userRows rowsTied 1 := by
  decide

/-- User statistics shape returned by `getUserStats`. -/
structure UserStats where
  appFlashcards : Nat
  customFlashcards : Nat
deriving DecidableEq, Repr

/-- `getUserStats`: throws when no user is authenticated, otherwise
counts the owner rows of each flashcard type. -/
def getUserStats (user : Option Nat) (rows : List SavedRow) :
    Except String UserStats :=
  match user with
  | none => Except.error "User not authenticated"
  | some uid =>
      Except.ok
        { appFlashcards :=
            (rows.filter (fun r => r.userId == uid && r.fcType == FcType.APP)).length,
          customFlashcards :=
            (rows.filter (fun r => r.userId == uid && r.fcType == FcType.CUSTOM)).length }

/-- `getCustomFlashcardsByIds`: returns `[]` for an empty id list;
returns `[]` (not an error) when no user is authenticated; otherwise
returns the ACTIVE rows of the owner whose ids are in the list. -/
def getCustomFlashcardsByIds (user : Option Nat) (ctable : List CustomRow)
    (ids : List String) : Except String (List CustomRow) :=
  if ids.isEmpty then Except.ok []
  else
    match user with
    | none => Except.ok []
    | some uid =>
        Except.ok (ctable.filter (fun r =>
          r.userId == uid && r.active && ids.contains r.id))

/-- First-occurrence deduplication, as the `Map`-based topic collection
performs. -/
def firstDedup (l : List String) : List String :=
  l.foldl (fun acc t => if t ∈ acc then acc else acc ++ [t]) []

/-- `getCustomFlashcardTopics`: returns `[]` (not an error) when no
user is authenticated; otherwise the deduplicated non-null topics of
the ACTIVE rows of the owner. -/
def getCustomFlashcardTopics (user : Option Nat) (ctable : List CustomRow) :
    Except String (List String) :=
  match user with
  | none => Except.ok []
  | some uid =>
      Except.ok (firstDedup
        ((ctable.filter (fun r => r.userId == uid && r.active && r.topic.isSome)).filterMap
          CustomRow.topic))

/-- C9 counterexample: with no authenticated user and a non-empty id
list, `getCustomFlashcardsByIds` returns a successful empty result
rather than failing with an unauthenticated error, and so does
`getCustomFlashcardTopics`; this refutes the claim that every exposed
operation fails fast on missing identity. -/
theorem c9_counterexample :
    getCustomFlashcardsByIds none [customRow0] ["c1"] = Except.ok [] ∧
    getCustomFlashcardTopics none [customRow0] = Except.ok [] :=
  ⟨rfl, rfl⟩

/-- C9 amended: with no authenticated user, listing pages and computing
stats fail fast with an unauthenticated error — independently of the
store contents, so before any store operation — while resolving local
content and listing topics instead return a successful empty result,
likewise without touching the store. -/
theorem c9_amended (rows : List SavedRow) (ctable : List CustomRow)
    (ids : List String) (cursor : Option Nat) :
    getSavedFlashcardsPaginated none rows cursor
        = Except.error "User not authenticated" ∧
    getUserStats none rows = Except.error "User not authenticated" ∧
    getCustomFlashcardsByIds none ctable ids = Except.ok [] ∧
    getCustomFlashcardTopics none ctable = Except.ok [] := by
  refine ⟨rfl, rfl, ?_, rfl⟩
  unfold getCustomFlashcardsByIds
  cases ids <;> simp

/-- Outcome of one `toggleSave` call as the user observes it. -/
inductive ToggleOutcome
  | savedOk
  | unsavedOk
  | alreadySaved
  | failed
deriving DecidableEq, Repr

/-- Builds the row inserted by `toggleSave`: type APP, not favorite,
zero review count. -/
def mkSavedRow (newId uid : Nat) (fid : String) (now : Nat) : SavedRow :=
  { id := newId, userId := uid, flashcardId := fid, fcType := FcType.APP,
    savedAt := now, isFavorite := false }

/-- The insert into `saved_flashcards` under the uniqueness invariant on
(owner, content id, content type): when a row with the same key exists
the database rejects the insert with error code 23505 and no second row
is created; otherwise the row is appended. -/
def insertSavedRow (rows : List SavedRow) (row : SavedRow) :
    Except Nat (List SavedRow) :=
  if rows.any (fun r => r.userId == row.userId && r.flashcardId == row.flashcardId
      && r.fcType == row.fcType) then
    Except.error 23505
  else
    Except.ok (rows ++ [row])

/-- `toggleSave` of `useSavedFlashcards.ts` over the membership set
`savedCards` (the local Set of saved ids) and the `saved_flashcards`
table. `deleteFails` and `insertFails` inject transport failures of the
respective calls. On a duplicate insert (code 23505) the collision is
absorbed: the id is added to the membership set and the outcome is
`alreadySaved`. -/
def toggleSave (user : Option Nat) (deleteFails insertFails : Bool)
    (savedCards : List String) (rows : List SavedRow)
    (fid : String) (newId now : Nat) :
    List String × List SavedRow × ToggleOutcome :=
  match user with
  | none => (savedCards, rows, ToggleOutcome.failed)
  | some uid =>
      if savedCards.contains fid then
        if deleteFails then (savedCards, rows, ToggleOutcome.failed)
        else
          (savedCards.erase fid,
           rows.filter (fun r => !(r.userId == uid && r.flashcardId == fid
             && r.fcType == FcType.APP)),
           ToggleOutcome.unsavedOk)
      else
        if insertFails then (savedCards, rows, ToggleOutcome.failed)
        else
          match insertSavedRow rows (mkSavedRow newId uid fid now) with
          | Except.error code =>
              if code == 23505 then
                (List.insert fid savedCards, rows, ToggleOutcome.alreadySaved)
              else (savedCards, rows, ToggleOutcome.failed)
          | Except.ok rows2 =>
              (List.insert fid savedCards, rows2, ToggleOutcome.savedOk)

/-- C7: when the id is not yet in the membership set but a row with the
same (owner, content id, APP) key already exists, the insert collides
with the uniqueness invariant and the collision is absorbed: no second
row is created (the table is unchanged), the outcome is `alreadySaved`
rather than a failure, and the membership set now contains the id. -/
theorem c7_duplicate_save_absorbed (uid : Nat) (savedCards : List String)
    (rows : List SavedRow) (fid : String) (newId now : Nat)
    (hnot : savedCards.contains fid = false)
    (hdup : rows.any (fun r => r.userId == uid && r.flashcardId == fid
        && r.fcType == FcType.APP) = true) :
    toggleSave (some uid) false false savedCards rows fid newId now
        = (List.insert fid savedCards, rows, ToggleOutcome.alreadySaved) ∧
    fid ∈ List.insert fid savedCards := by
  constructor
  · unfold toggleSave insertSavedRow mkSavedRow
    simp [hnot, hdup]
    simpa using hnot
  · exact List.mem_insert_self fid savedCards

/-- C7 witness: the duplicate-absorption theorem at a concrete store
already holding the (owner 1, id f9, APP) row. -/
theorem c7_witness :
    toggleSave (some 1) false false []
        [{ id := 9, userId := 1, flashcardId := "f9", fcType := FcType.APP,
           savedAt := 3, isFavorite := false }] "f9" 77 8
      = (List.insert "f9" [],
         [{ id := 9, userId := 1, flashcardId := "f9", fcType := FcType.APP,
            savedAt := 3, isFavorite := false }], ToggleOutcome.alreadySaved) ∧
    "f9" ∈ List.insert "f9" ([] : List String) :=
  c7_duplicate_save_absorbed 1 []
    [{ id := 9, userId := 1, flashcardId := "f9", fcType := FcType.APP,
       savedAt := 3, isFavorite := false }] "f9" 77 8 (by decide) (by decide)

/-- Bounded timeout of the remote batch fetch in
`getFlashcardDetailsByIds` (`TIMEOUT_MS`), in milliseconds. -/
def remoteTimeoutMs : Nat := 8000

/-- The `english` field of a remote content record as JavaScript sees
it: absent, a single string, or an array of strings. -/
inductive EnglishField
  | absent
  | one (s : String)
  | many (l : List String)
deriving DecidableEq, Repr

/-- A remote content record returned by the batch endpoint (the fields
the resolver reads). -/
structure AppDetail where
  id : String
  vietnamese : Option String
  english : EnglishField
deriving DecidableEq, Repr

/-- One display item produced for the page: the entry it came from and
the resolved display fields. -/
structure EnrichedItem where
  entryId : Nat
  fcType : FcType
  textVi : String
  textEn : List String
deriving DecidableEq, Repr

/-- JavaScript `slice(-4)`: the last four characters (the whole string
when shorter), modelled character-wise so that it evaluates. -/
def sliceLast4 (s : String) : String :=
  String.mk (s.data.drop (s.data.length - 4))

/-- JavaScript `x || d` on an optional string: the default replaces a
missing or empty value. -/
def orFalsy : Option String → String → String
  | some s, d => if s = "" then d else s
  | none, d => d

/-- The derived placeholder label for an unresolved APP entry:
`App Card <last 4 chars of the id>` (N/A when the id is empty). -/
def appFallbackLabel (fid : String) : String :=
  "App Card " ++ (if sliceLast4 fid = "" then "N/A" else sliceLast4 fid)

/-- The `Array.isArray` cascade on the `english` field: an array is
taken as is, a truthy string is wrapped, anything else falls back to
the placeholder translation. -/
def englishOrDefault : EnglishField → List String
  | EnglishField.many l => l
  | EnglishField.one s => if s = "" then ["No translation available"] else [s]
  | EnglishField.absent => ["No translation available"]

/-- The per-entry join of `fetchSavedFlashcardsPage`: look the entry up
in the matching source by id and merge, falling back to the derived
placeholder when the lookup misses. -/
def enrichCard (appDetails : List AppDetail) (customDetails : List CustomRow)
    (card : SavedRow) : EnrichedItem :=
  match card.fcType with
  | FcType.APP =>
      match appDetails.find? (fun d => d.id == card.flashcardId) with
      | some d =>
          { entryId := card.id, fcType := FcType.APP,
            textVi := orFalsy d.vietnamese (appFallbackLabel card.flashcardId),
            textEn := englishOrDefault d.english }
      | none =>
          { entryId := card.id, fcType := FcType.APP,
            textVi := appFallbackLabel card.flashcardId,
            textEn := ["No translation available"] }
  | FcType.CUSTOM =>
      match customDetails.find? (fun d => d.id == stripCustomTag card.flashcardId) with
      | some d =>
          { entryId := card.id, fcType := FcType.CUSTOM,
            textVi :=
              if d.vietnameseText = "" then
                "Custom Card " ++ sliceLast4 (stripCustomTag card.flashcardId)
              else d.vietnameseText,
            textEn :=
              [if d.englishText = "" then "Loading..." else d.englishText] }
      | none =>
          { entryId := card.id, fcType := FcType.CUSTOM,
            textVi := "Custom Card " ++ sliceLast4 (stripCustomTag card.flashcardId),
            textEn := ["Loading..."] }

/-- The details actually available after the remote batch call: the
returned list on success, the empty list when the fetch timed out or
failed (the catch branch that continues with placeholder data). -/
def appDetailsOf : Except Unit (List AppDetail) → List AppDetail
  | Except.ok ds => ds
  | Except.error _ => []

/-- `fetchSavedFlashcardsPage`, items part: an empty page short-cuts to
an empty result; otherwise every saved entry of the page is mapped to
one enriched item. -/
def fetchSavedFlashcardsPage (savedCards : List SavedRow)
    (fetched : Except Unit (List AppDetail)) (customDetails : List CustomRow) :
    List EnrichedItem :=
  if savedCards.isEmpty then []
  else savedCards.map (enrichCard (appDetailsOf fetched) customDetails)

/-- C8: page resolution yields exactly one enriched item per saved
entry of the page, the remote fetch is guarded by the bounded 8000 ms
timeout constant, and an APP entry whose id is not matched by the
available remote details — because the batch timed out (no details at
all) or returned only a subset — resolves to the derived placeholder
label instead of being dropped, without failing the rest of the page. -/
theorem c8_placeholder_resolution (savedCards : List SavedRow)
    (fetched : Except Unit (List AppDetail)) (customDetails : List CustomRow) :
    remoteTimeoutMs = 8000 ∧
    (fetchSavedFlashcardsPage savedCards fetched customDetails).length
        = savedCards.length ∧
    (∀ card ∈ savedCards, card.fcType = FcType.APP →
      (appDetailsOf fetched).find? (fun d => d.id == card.flashcardId) = none →
      enrichCard (appDetailsOf fetched) customDetails card
          ∈ fetchSavedFlashcardsPage savedCards fetched customDetails ∧
      (enrichCard (appDetailsOf fetched) customDetails card).textVi
          = appFallbackLabel card.flashcardId ∧
      (enrichCard (appDetailsOf fetched) customDetails card).entryId = card.id) := by
  refine ⟨rfl, ?_, ?_⟩
  · unfold fetchSavedFlashcardsPage
    cases savedCards with
    | nil => simp
    | cons a t => simp
  · intro card hmem htype hmiss
    have hnonempty : savedCards.isEmpty = false := by
      cases savedCards with
      | nil => simp at hmem
      | cons a t => rfl
    refine ⟨?_, ?_, ?_⟩
    · unfold fetchSavedFlashcardsPage
      rw [hnonempty]
      simp only [Bool.false_eq_true, if_false]
      exact List.mem_map_of_mem _ hmem
    · unfold enrichCard
      rw [htype, hmiss]
    · unfold enrichCard
      rw [htype, hmiss]

/-- Concrete page for the C8 witness: two APP entries, one resolved by
the remote details and one missed. -/
def cardsW8 : List SavedRow :=
  [{ id := 1, userId := 1, flashcardId := "abcd1234", fcType := FcType.APP,
     savedAt := 10, isFavorite := false },
   { id := 2, userId := 1, flashcardId := "wxyz9876", fcType := FcType.APP,
     savedAt := 9, isFavorite := false }]

/-- Remote details for the C8 witness: only the first id resolves. -/
def detailsW8 : List AppDetail :=
  [{ id := "abcd1234", vietnamese := some "xin chao",
     english := EnglishField.many ["hello"] }]

/-- C8 witness: the resolution theorem at the concrete page `cardsW8`,
where the batch returned only a subset of the requested ids: the missed
entry is still delivered, bearing the derived label. -/
theorem c8_witness :
    enrichCard (appDetailsOf (Except.ok detailsW8)) [] cardsW8[1]
        ∈ fetchSavedFlashcardsPage cardsW8 (Except.ok detailsW8) [] ∧
    (enrichCard (appDetailsOf (Except.ok detailsW8)) [] cardsW8[1]).textVi
        = appFallbackLabel "wxyz9876" ∧
    (enrichCard (appDetailsOf (Except.ok detailsW8)) [] cardsW8[1]).entryId = 2 :=
  (c8_placeholder_resolution cardsW8 (Except.ok detailsW8) []).2.2
    cardsW8[1] (by decide) (by decide) (by decide)

/-- C10: dismissing the countdown clears the deferred commit task and
discards the PendingDeletion, issues no persistence call, and does not
reinsert the snapshot: both caches are exactly as they were (so an item
removed at delete intent stays absent) and the persisted state is
untouched. -/
theorem c10_dismiss_discards_without_restore (c : ClientState) :
    (dismissCountdown c).1.pending = none ∧
    (dismissCountdown c).1.details = c.details ∧
    (dismissCountdown c).1.pages = c.pages ∧
    (dismissCountdown c).2 = [] := by
  cases hp : c.pending <;> simp [dismissCountdown, hp]

end SavedEngine
